import Mathlib

/-!
Shallow embedding of `src/lab1.py`, a synthetic KDD-Cup-99 style data
pipeline: a generator writes a 42-column comma-delimited file, a loader
reads it back (pandas `read_csv`), derives an `attack_category` column,
and two chart views aggregate the loaded table.

Randomness is embedded by passing the outputs of the random source in
explicitly: `g k` is the raw draw consumed by the `k`-th call into the
Python `random` module while one row is built.  `random.randint` and
`random.choice` reduce their raw draw modulo the size of the range, so
exactly the values the library could return are reachable as `g` varies.
`random.random()` returns `k / 2 ^ 53` for some `k < 2 ^ 53`, embedded
exactly as a rational number.

The CSV file is embedded at the record level: a file is a list of lines,
each line a list of raw field strings.  `to_csv` renders every cell to
its text; `read_csv` parses every cell back (int first, then float, else
string), errors on a file with no lines (pandas `EmptyDataError`),
errors when a line has more fields than the first line (pandas
`ParserError`), and pads shorter lines with missing values, as the
pandas csv reader does.  Float text is modelled by an exact 53-place
decimal rendering of the binary64 value, so "equal modulo number
formatting" becomes plain equality of the parsed rational values.
-/

/-- Cell values of the table: Python ints, floats (as exact rationals),
strings, and the missing value `NaN`. -/
inductive Value where
  | VInt : ℤ → Value
  | VRat : ℚ → Value
  | VStr : String → Value
  | VNull : Value
deriving DecidableEq

open Value

/-- The 42 KDD Cup 99 column names from `src/lab1.py`. -/
def KDD_COLUMNS : List String :=
  ["duration", "protocol_type", "service", "flag", "src_bytes", "dst_bytes",
   "land", "wrong_fragment", "urgent", "hot", "num_failed_logins", "logged_in",
   "num_compromised", "root_shell", "su_attempted", "num_root", "num_file_creations",
   "num_shells", "num_access_files", "num_outbound_cmds", "is_host_login",
   "is_guest_login", "count", "srv_count", "serror_rate", "srv_serror_rate",
   "rerror_rate", "srv_rerror_rate", "same_srv_rate", "diff_srv_rate",
   "srv_diff_host_rate", "dst_host_count", "dst_host_srv_count",
   "dst_host_same_srv_rate", "dst_host_diff_srv_rate",
   "dst_host_same_src_port_rate", "dst_host_srv_diff_host_rate",
   "dst_host_serror_rate", "dst_host_srv_serror_rate",
   "dst_host_rerror_rate", "dst_host_srv_rerror_rate", "attack_type"]

def PROTOCOLS : List String := ["tcp", "udp", "icmp"]

def SERVICES : List String := ["http", "ftp", "smtp", "domain_u"]

def FLAGS : List String := ["SF", "REJ", "S0"]

def ATTACKS : List String := ["normal.", "smurf.", "neptune.", "back.", "teardrop."]

def NUM_ROWS : ℕ := 5000

/-- Embedding of `random.randint(lo, hi)`: the raw draw `n` is reduced
into the inclusive range `[lo, hi]`. -/
def randint (lo hi : ℤ) (n : ℕ) : ℤ := lo + ((n % (hi - lo + 1).toNat : ℕ) : ℤ)

/-- Embedding of `random.choice(l)`: the raw draw `n` picks an index. -/
def choice (l : List String) (n : ℕ) : String := l.getD (n % l.length) ""

/-- Embedding of `random.random()`: the binary64 value `k / 2 ^ 53` with
`k < 2 ^ 53`, as an exact rational. -/
def randfloat (n : ℕ) : ℚ := ((n % 2 ^ 53 : ℕ) : ℚ) / 2 ^ 53

/-- One row of `generate_synthetic_data` in `src/lab1.py`, lines 42-90.
`g k` is the raw draw of the `k`-th `random` call for this row: `g 0` is
the `is_attack` test `random.random() > 0.3`, `g 1` to `g 36` are the
unconditional field draws in source order, and `g 37` is the
`random.choice(ATTACKS[1:])` draw used only when `is_attack` holds.
(The float literal `0.3` equals `5404319552844595 / 2 ^ 54`; on the
grid `k / 2 ^ 53` of `random.random()` values, being above it is
equivalent to being above `3 / 10`, so the threshold is embedded as
`3 / 10`.) -/
def generateRow (g : ℕ → ℕ) : List Value :=
  [VInt (randint 0 1000 (g 1)),                -- duration
   VStr (choice PROTOCOLS (g 2)),              -- protocol_type
   VStr (choice SERVICES (g 3)),               -- service
   VStr (choice FLAGS (g 4)),                  -- flag
   VInt (randint 0 50000 (g 5)),               -- src_bytes
   VInt (randint 0 50000 (g 6)),               -- dst_bytes
   VInt 0,                                     -- land
   VInt 0,                                     -- wrong_fragment
   VInt 0,                                     -- urgent
   VInt (randint 0 10 (g 7)),                  -- hot
   VInt (randint 0 5 (g 8)),                   -- num_failed_logins
   VInt (randint 0 1 (g 9)),                   -- logged_in
   VInt (randint 0 10 (g 10)),                 -- num_compromised
   VInt (randint 0 1 (g 11)),                  -- root_shell
   VInt (randint 0 1 (g 12)),                  -- su_attempted
   VInt (randint 0 10 (g 13)),                 -- num_root
   VInt (randint 0 5 (g 14)),                  -- num_file_creations
   VInt (randint 0 2 (g 15)),                  -- num_shells
   VInt (randint 0 2 (g 16)),                  -- num_access_files
   VInt 0,                                     -- num_outbound_cmds
   VInt 0,                                     -- is_host_login
   VInt (randint 0 1 (g 17)),                  -- is_guest_login
   VInt (randint 1 100 (g 18)),                -- count
   VInt (randint 1 100 (g 19)),                -- srv_count
   VRat (randfloat (g 20)),                    -- serror_rate
   VRat (randfloat (g 21)),                    -- srv_serror_rate
   VRat (randfloat (g 22)),                    -- rerror_rate
   VRat (randfloat (g 23)),                    -- srv_rerror_rate
   VRat (randfloat (g 24)),                    -- same_srv_rate
   VRat (randfloat (g 25)),                    -- diff_srv_rate
   VRat (randfloat (g 26)),                    -- srv_diff_host_rate
   VInt (randint 1 255 (g 27)),                -- dst_host_count
   VInt (randint 1 255 (g 28)),                -- dst_host_srv_count
   VRat (randfloat (g 29)),                    -- dst_host_same_srv_rate
   VRat (randfloat (g 30)),                    -- dst_host_diff_srv_rate
   VRat (randfloat (g 31)),                    -- dst_host_same_src_port_rate
   VRat (randfloat (g 32)),                    -- dst_host_srv_diff_host_rate
   VRat (randfloat (g 33)),                    -- dst_host_serror_rate
   VRat (randfloat (g 34)),                    -- dst_host_srv_serror_rate
   VRat (randfloat (g 35)),                    -- dst_host_rerror_rate
   VRat (randfloat (g 36)),                    -- dst_host_srv_rerror_rate
   VStr (if 3 / 10 < randfloat (g 0)           -- attack_type
         then choice (ATTACKS.drop 1) (g 37)
         else ATTACKS.getD 0 "")]

/-- The rows built by `generate_synthetic_data(num_rows)`; `G i` is the
raw random source consumed by row `i`. -/
def genRows (n : ℕ) (G : ℕ → ℕ → ℕ) : List (List Value) :=
  (List.range n).map (fun i => generateRow (G i))

/-- Character-level helper: the numeric value of a decimal digit. -/
def charToDigit (c : Char) : ℕ := c.toNat - '0'.toNat

/-- Little-endian decimal digits of `n`, driven by a fuel argument so
that the recursion is structural; with `fuel = n` it agrees with
`Nat.digits 10 n`. -/
def natDigitsAux : ℕ → ℕ → List ℕ
  | _, 0 => []
  | 0, _ + 1 => []
  | fuel + 1, n + 1 => (n + 1) % 10 :: natDigitsAux fuel ((n + 1) / 10)

/-- Little-endian decimal digits of `n` (empty for `0`). -/
def natDigits (n : ℕ) : List ℕ := natDigitsAux n n

/-- Decimal rendering of a natural number, most significant digit first. -/
def natToChars (n : ℕ) : List Char :=
  if n = 0 then ['0'] else ((natDigits n).map Nat.digitChar).reverse

/-- Numeric value of a most-significant-first digit string. -/
def digitsVal (cs : List Char) : ℕ := Nat.ofDigits 10 ((cs.map charToDigit).reverse)

/-- Parse a nonempty all-digit character string. -/
def digitsToNat? (cs : List Char) : Option ℕ :=
  if cs ≠ [] ∧ cs.all (·.isDigit) then some (digitsVal cs) else none

/-- Parse an optionally-signed decimal integer. -/
def intOfChars? (cs : List Char) : Option ℤ :=
  if cs.head? = some '-' then (digitsToNat? cs.tail).map (fun n => -(n : ℤ))
  else (digitsToNat? cs).map (fun n => (n : ℤ))

/-- Parse an unsigned decimal fraction `digits.digits`: there is a dot,
either side may be empty but not both, and both sides are digit runs (so
a second dot is rejected). -/
def floatOfCharsPos? (cs : List Char) : Option ℚ :=
  if (cs.dropWhile (· ≠ '.')) ≠ [] ∧
      ((cs.takeWhile (· ≠ '.')) ≠ [] ∨ (cs.dropWhile (· ≠ '.')).tail ≠ []) ∧
      (cs.takeWhile (· ≠ '.')).all (·.isDigit) ∧
      (cs.dropWhile (· ≠ '.')).tail.all (·.isDigit) then
    some ((digitsVal (cs.takeWhile (· ≠ '.')) : ℚ) +
      (digitsVal (cs.dropWhile (· ≠ '.')).tail : ℚ) / 10 ^ (cs.dropWhile (· ≠ '.')).tail.length)
  else none

/-- Parse an optionally-signed decimal fraction. -/
def floatOfChars? (cs : List Char) : Option ℚ :=
  if cs.head? = some '-' then (floatOfCharsPos? cs.tail).map Neg.neg
  else floatOfCharsPos? cs

/-- Embedding of the `read_csv` cell reader: an empty field is a missing
value; otherwise the cell is inferred as int, then float, else kept as a
string.  (pandas infers per column; on every file this pipeline writes,
each column is homogeneous, so per-cell inference agrees with it.) -/
def parseField (s : String) : Value :=
  if s = "" then VNull
  else
    match intOfChars? s.data with
    | some i => VInt i
    | none =>
      match floatOfChars? s.data with
      | some q => VRat q
      | none => VStr s

/-- Exact 53-place decimal rendering of a binary64 value `k / 2 ^ 53`
taken from `[0, 1)`, the only floats this pipeline ever writes.  The
text pandas writes (shortest round-tripping form) denotes the same
rational, so this models float text up to number formatting. -/
def ratToChars (q : ℚ) : List Char :=
  '0' :: '.' :: (List.replicate (53 - (natToChars (q * 10 ^ 53).num.toNat).length) '0'
    ++ natToChars (q * 10 ^ 53).num.toNat)

/-- Text of one cell as `DataFrame.to_csv` writes it. -/
def renderValue : Value → String
  | VInt i => if i < 0 then String.mk ('-' :: natToChars (-i).toNat)
              else String.mk (natToChars i.toNat)
  | VRat q => String.mk (ratToChars q)
  | VStr s => s
  | VNull => ""

/-- Embedding of `df.to_csv(FILE_NAME, index=False, header=False)`: the
written file, one line of rendered fields per row, no header line. -/
def saveCsv (rows : List (List Value)) : List (List String) :=
  rows.map (fun r => r.map renderValue)

/-- A pandas `DataFrame`: column names plus the rows. -/
structure Frame where
  names : List String
  rows : List (List Value)
deriving DecidableEq

/-- Embedding of `generate_synthetic_data` (`src/lab1.py` lines 36-98):
returns the in-memory table and, as an explicit value, the file its
`to_csv` side effect writes. -/
def generate_synthetic_data (n : ℕ) (G : ℕ → ℕ → ℕ) : Frame × List (List String) :=
  (⟨KDD_COLUMNS, genRows n G⟩, saveCsv (genRows n G))

/-- Failure modes of the loading stage: pandas `EmptyDataError` for a
file with no rows, pandas `ParserError` when a line has more fields than
the first line, and the `ValueError` that `df.columns = KDD_COLUMNS`
raises when the column count is not 42. -/
inductive LoadError where
  | emptyData : LoadError
  | tokenizeError : LoadError
  | lengthMismatch : LoadError
deriving DecidableEq

/-- Embedding of `pd.read_csv(FILE_NAME, header=None)`.  The first line
fixes the column count; a longer line is a parse error, a shorter line
is padded with missing values, and every cell is type-inferred. -/
def parseCell : Option String → Value
  | some s => parseField s
  | none => VNull

/-- Row-structured part of `pd.read_csv(FILE_NAME, header=None)`; see
`parseCell` for the cell reader. -/
def read_csv (file : List (List String)) : Except LoadError (List (List Value)) :=
  match file with
  | [] => .error .emptyData
  | r0 :: rest =>
    if (r0 :: rest).all (fun r => r.length ≤ r0.length) then
      .ok ((r0 :: rest).map (fun r => (List.range r0.length).map (fun j => parseCell r[j]?)))
    else .error .tokenizeError

/-- The per-cell mapping of `src/lab1.py` line 115:
`lambda x: 'Normal' if x == 'normal.' else 'Attack'`. -/
def attack_category (x : Value) : String :=
  if x = VStr "normal." then "Normal" else "Attack"

/-- Embedding of `load_and_prepare_data` (`src/lab1.py` lines 101-121):
read the file, assign the 42 schema names positionally, and append the
derived `attack_category` column computed from `attack_type`
(column 41). -/
def load_and_prepare_data (file : List (List String)) : Except LoadError Frame :=
  match read_csv file with
  | .error e => .error e
  | .ok rows =>
    if (rows.headD []).length = 42 then
      .ok ⟨KDD_COLUMNS ++ ["attack_category"],
           rows.map (fun r => r ++ [VStr (attack_category (r.getD 41 VNull))])⟩
    else .error .lengthMismatch

/-- Cell of a row under a named column (`df[name]` at that row); rows
sit positionally under `df.names`. -/
def getCell (df : Frame) (r : List Value) (name : String) : Value :=
  r.getD (df.names.indexOf name) VNull

/-- Distinct elements in order of first occurrence (the key order pandas
hash-based counting produces before sorting). -/
def firstUniq : List Value → List Value
  | [] => []
  | x :: xs => x :: firstUniq (xs.filter (· ≠ x))
termination_by l => l.length
decreasing_by
  simp only [List.length_cons]
  exact Nat.lt_succ_of_le (xs.length_filter_le _)

/-- Embedding of `Series.value_counts()`: each distinct value with its
multiplicity, stably sorted by descending count (ties keep first
occurrence order because the sort is stable). -/
def value_counts (xs : List Value) : List (Value × ℕ) :=
  ((firstUniq xs).map (fun v => (v, xs.count v))).insertionSort (fun a b => b.2 ≤ a.2)

/-- Outcome of one chart function: either the logged skip notice or the
data series the chart draws. -/
inductive Render where
  | notice : String → Render
  | barChart : List (Value × ℕ) → Render
  | lineChart : List (ℤ × ℕ) → Render
deriving DecidableEq

/-- The series of `src/lab1.py` line 127:
`df[df['attack_category'] == 'Attack']['attack_type'].value_counts().head(10)`. -/
def top_attacks_series (df : Frame) : List (Value × ℕ) :=
  (value_counts ((df.rows.filter
      (fun r => getCell df r "attack_category" = VStr "Attack")).map
    (fun r => getCell df r "attack_type"))).take 10

/-- Embedding of `plot_top_attacks` (`src/lab1.py` lines 124-140): the
table it leaves behind and what it renders.  Line 127 filters the rows
with category `Attack`, counts their `attack_type` values and keeps the
10 largest counts; an empty result is only logged. -/
def plot_top_attacks (df : Frame) : Frame × Render :=
  if (top_attacks_series df).isEmpty then (df, .notice "No attacks found to plot top 10.")
  else (df, .barChart (top_attacks_series df))

/-- Embedding of pandas column assignment `df[name] = vals`: overwrite
in place when the column exists, else append it on the right. -/
def setCol (df : Frame) (name : String) (vals : List Value) : Frame :=
  if name ∈ df.names then
    ⟨df.names, (df.rows.zip vals).map (fun p => p.1.set (df.names.indexOf name) p.2)⟩
  else
    ⟨df.names ++ [name], (df.rows.zip vals).map (fun p => p.1 ++ [p.2])⟩

/-- Run-length pass of `groupbySize` over the sorted key list. -/
def countRunsGo (k : ℤ) (c : ℕ) : List ℤ → List (ℤ × ℕ)
  | [] => [(k, c)]
  | x :: xs => if x = k then countRunsGo k (c + 1) xs else (k, c) :: countRunsGo x 1 xs

/-- Embedding of `.groupby(keys).size()`: the size of every nonempty
group, keyed by the distinct keys in ascending order. -/
def groupbySize (keys : List ℤ) : List (ℤ × ℕ) :=
  match keys.insertionSort (· ≤ ·) with
  | [] => []
  | x :: xs => countRunsGo x 1 xs

def interval_size : ℕ := 1000

/-- The integer content of a cell (the `time` column is always ints). -/
def valueToInt : Value → ℤ
  | VInt i => i
  | _ => 0

/-- The table after `src/lab1.py` line 146, `df['time'] = range(len(df))`:
the mutation `plot_attack_trend` performs on the caller's table. -/
def timed_frame (df : Frame) : Frame :=
  setCol df "time" ((List.range df.rows.length).map (fun i => VInt (Int.ofNat i)))

/-- The series of `src/lab1.py` line 152:
`df[df['attack_category'] == 'Attack'].groupby(df['time'] // interval_size).size()`. -/
def attack_trend_series (df : Frame) : List (ℤ × ℕ) :=
  groupbySize
    (((timed_frame df).rows.filter
        (fun r => getCell (timed_frame df) r "attack_category" = VStr "Attack")).map
      (fun r => valueToInt (getCell (timed_frame df) r "time") / (interval_size : ℤ)))

/-- Embedding of `plot_attack_trend` (`src/lab1.py` lines 142-164): the
table it leaves behind (line 146 assigns `df['time'] = range(len(df))`,
mutating the caller's table) and what it renders.  Line 152 groups the
`Attack` rows by `time // 1000` and takes group sizes; an empty result
is only logged. -/
def plot_attack_trend (df : Frame) : Frame × Render :=
  if (attack_trend_series df).isEmpty then (timed_frame df, .notice "No attack trend to plot.")
  else (timed_frame df, .lineChart (attack_trend_series df))

/-- The loader plus both views as one function of the file contents (the
report stage of the `__main__` block, `src/lab1.py` lines 174-178). -/
def reportStage (file : List (List String)) : Except LoadError (Frame × Render × Render) :=
  (load_and_prepare_data file).map
    (fun df => (df, (plot_top_attacks df).2, (plot_attack_trend df).2))

/-! ### Basic facts about the embedded primitives -/

theorem natDigitsAux_eq (fuel n : ℕ) (h : n ≤ fuel) :
    natDigitsAux fuel n = Nat.digits 10 n := by
  induction fuel generalizing n with
  | zero =>
    have : n = 0 := Nat.le_zero.mp h
    subst this
    simp [natDigitsAux]
  | succ fuel ih =>
    cases n with
    | zero => simp [natDigitsAux]
    | succ n =>
      have hdiv : (n + 1) / 10 ≤ fuel := by
        have := Nat.div_lt_self (Nat.succ_pos n) (by norm_num : 1 < 10)
        omega
      rw [natDigitsAux, ih _ hdiv, ← Nat.digits_def' (by norm_num : 1 < 10) (Nat.succ_pos n)]

theorem natDigits_eq (n : ℕ) : natDigits n = Nat.digits 10 n :=
  natDigitsAux_eq n n le_rfl

theorem randint_bounds (lo hi : ℤ) (n : ℕ) (h : lo ≤ hi) :
    lo ≤ randint lo hi n ∧ randint lo hi n ≤ hi := by
  unfold randint
  have hpos : 0 < (hi - lo + 1).toNat := by omega
  have hmod : n % (hi - lo + 1).toNat < (hi - lo + 1).toNat := Nat.mod_lt _ hpos
  have hcast : ((hi - lo + 1).toNat : ℤ) = hi - lo + 1 := by omega
  omega

theorem randfloat_bounds (n : ℕ) : 0 ≤ randfloat n ∧ randfloat n < 1 := by
  unfold randfloat
  constructor
  · positivity
  · rw [div_lt_one (by positivity)]
    exact_mod_cast Nat.mod_lt n (by positivity)

/-! ### Shape of tables returned by the loader -/

theorem read_csv_ok_shape {file : List (List String)} {rows : List (List Value)}
    (h : read_csv file = .ok rows) :
    rows ≠ [] ∧ ∀ r ∈ rows, r.length = (rows.headD []).length := by
  match file, h with
  | r0 :: rest, h =>
    rw [read_csv] at h
    split at h
    · obtain rfl : _ = rows := Except.ok.inj h
      refine ⟨by simp, ?_⟩
      intro r hr
      rw [List.mem_map] at hr
      obtain ⟨a, _, rfl⟩ := hr
      simp
    · cases h

theorem load_ok_shape {file : List (List String)} {df : Frame}
    (h : load_and_prepare_data file = .ok df) :
    df.names = KDD_COLUMNS ++ ["attack_category"] ∧
      ∀ r1 ∈ df.rows, ∃ r, r.length = 42 ∧
        r1 = r ++ [VStr (attack_category (r.getD 41 VNull))] := by
  rw [load_and_prepare_data] at h
  split at h
  · cases h
  · rename_i rows hr
    split at h
    · rename_i h42
      obtain rfl : _ = df := Except.ok.inj h
      refine ⟨rfl, ?_⟩
      intro r1 hr1
      simp only [List.mem_map] at hr1
      obtain ⟨r, hrm, rfl⟩ := hr1
      exact ⟨r, by rw [(read_csv_ok_shape hr).2 r hrm, h42], rfl⟩
    · cases h

theorem idx_attack_category :
    (KDD_COLUMNS ++ ["attack_category"]).indexOf "attack_category" = 42 := by decide

theorem idx_attack_type :
    (KDD_COLUMNS ++ ["attack_category"]).indexOf "attack_type" = 41 := by decide

/-! ### C1: derived category is an exact string match on the label -/

/-- C1: in every table returned by the loader, a row's derived
`attack_category` is `"Normal"` exactly when its `attack_type` field is
the string `"normal."` (exact, case-sensitive match), and `"Attack"`
for every other value. -/
theorem c1_attack_category_exact_match :
    ∀ (file : List (List String)) (df : Frame),
      load_and_prepare_data file = .ok df →
      ∀ r ∈ df.rows,
        (getCell df r "attack_category" = VStr "Normal" ↔
          getCell df r "attack_type" = VStr "normal.") ∧
        (getCell df r "attack_type" ≠ VStr "normal." →
          getCell df r "attack_category" = VStr "Attack") := by
  intro file df h r1 hr1
  obtain ⟨hnames, hrows⟩ := load_ok_shape h
  obtain ⟨r, hlen, rfl⟩ := hrows r1 hr1
  have hcat : getCell df (r ++ [VStr (attack_category (r.getD 41 VNull))]) "attack_category"
      = VStr (attack_category (r.getD 41 VNull)) := by
    rw [getCell, hnames, idx_attack_category, List.getD_append_right _ _ _ _ hlen.le]
    simp [hlen]
  have hty : getCell df (r ++ [VStr (attack_category (r.getD 41 VNull))]) "attack_type"
      = r.getD 41 VNull := by
    rw [getCell, hnames, idx_attack_type, List.getD_append _ _ _ _ (by omega)]
  rw [hcat, hty, attack_category]
  split
  · rename_i heq
    exact ⟨⟨fun _ => heq, fun _ => rfl⟩, fun hne => absurd heq hne⟩
  · rename_i hne
    refine ⟨⟨fun hcontra => absurd (Value.VStr.inj hcontra) (by decide),
      fun h' => absurd h' hne⟩, fun _ => rfl⟩

/-- Witness for C1 at a concrete one-row file. -/
theorem c1_witness :
    (∃ df, load_and_prepare_data [List.replicate 42 "x"] = .ok df ∧
      ∀ r ∈ df.rows,
        (getCell df r "attack_category" = VStr "Normal" ↔
          getCell df r "attack_type" = VStr "normal.") ∧
        (getCell df r "attack_type" ≠ VStr "normal." →
          getCell df r "attack_category" = VStr "Attack")) := by
  refine ⟨⟨KDD_COLUMNS ++ ["attack_category"],
    [List.replicate 42 (VStr "x") ++ [VStr "Attack"]]⟩, ?_, ?_⟩
  · rfl
  · exact c1_attack_category_exact_match [List.replicate 42 "x"] _ rfl

/-! ### C4: a zero-row run writes an empty file and the loader raises -/

/-- C4 evaluation: with row count 0 the generator writes a file with 0
data rows, but then the load-and-report stage raises the pandas
`EmptyDataError` (the empty file has no columns to parse), so neither
chart view ever runs and no "no data" notice is printed. -/
theorem c4_zero_rows_loader_raises :
    (∀ G, (generate_synthetic_data 0 G).2 = []) ∧
      reportStage [] = .error .emptyData := by
  constructor
  · intro G
    simp [generate_synthetic_data, genRows, saveCsv]
  · rfl

/-! ### C10: the loader and both views are functions of the file bytes -/

/-- C10: determinism.  The load stage and both chart views depend on
nothing but the file contents: two runs over equal files produce equal
loaded tables and equal rendered results. -/
theorem c10_deterministic :
    ∀ f1 f2 : List (List String), f1 = f2 → reportStage f1 = reportStage f2 := by
  intro f1 f2 h
  rw [h]

/-- Witness for C10 at a concrete file. -/
theorem c10_witness :
    ([List.replicate 42 "x"] : List (List String)) = [List.replicate 42 "x"] ∧
      reportStage [List.replicate 42 "x"] = reportStage [List.replicate 42 "x"] :=
  ⟨rfl, c10_deterministic [List.replicate 42 "x"] [List.replicate 42 "x"] rfl⟩

/-! ### C7: when the loader fails and when it does not -/

/-- Concrete file whose second line has only 41 fields. -/
def badWidthFile : List (List String) := [List.replicate 42 "0", List.replicate 41 "0"]

/-- Counterexample for C7 as stated: a file whose rows do not all have
42 columns (the second line has 41) loads without any error, because
pandas pads short lines with missing values. -/
theorem c7_counterexample :
    (∃ df, load_and_prepare_data badWidthFile = .ok df) ∧
      ¬ ∀ r ∈ badWidthFile, r.length = 42 := by
  constructor
  · exact ⟨_, rfl⟩
  · intro hall
    have := hall (List.replicate 41 "0") (by simp [badWidthFile])
    simp at this

/-- C7 as amended: loading succeeds exactly when the file is nonempty,
its first line has exactly 42 fields, and no line has more than 42
fields.  A line longer than the first is a pandas `ParserError`; a first
line whose width is not 42 makes the schema assignment raise; lines
shorter than the first are padded with missing values, not rejected, and
value types never cause a failure. -/
theorem c7_loader_failure_amended :
    ∀ file : List (List String),
      (∃ df, load_and_prepare_data file = .ok df) ↔
        (file ≠ [] ∧ (file.headD []).length = 42 ∧ ∀ r ∈ file, r.length ≤ 42) := by
  intro file
  constructor
  · rintro ⟨df, h⟩
    rw [load_and_prepare_data] at h
    split at h
    · cases h
    · rename_i rows hrcsv
      split at h
      · rename_i h42
        match file, hrcsv with
        | r0 :: rest, hrcsv =>
          rw [read_csv] at hrcsv
          split at hrcsv
          · rename_i hall
            obtain rfl : _ = rows := Except.ok.inj hrcsv
            have hr0 : r0.length = 42 := by simpa using h42
            refine ⟨by simp, by simpa using hr0, ?_⟩
            intro r hr
            have hle := of_decide_eq_true (List.all_eq_true.mp hall r hr)
            omega
          · cases hrcsv
      · cases h
  · rintro ⟨hne, h42, hle⟩
    match file with
    | [] => exact absurd rfl hne
    | r0 :: rest =>
      simp only [List.headD_cons] at h42
      cases hrc : read_csv (r0 :: rest) with
      | error e =>
        exfalso
        rw [read_csv] at hrc
        split at hrc
        · cases hrc
        · rename_i hall
          apply hall
          rw [List.all_eq_true]
          intro r hr
          exact decide_eq_true (by have := hle r hr; omega)
      | ok rows =>
        have hcond : (rows.headD []).length = 42 := by
          rw [read_csv] at hrc
          split at hrc
          · obtain rfl : _ = rows := Except.ok.inj hrc
            simpa using h42
          · cases hrc
        simp only [load_and_prepare_data, hrc]
        rw [if_pos hcond]
        exact ⟨_, rfl⟩

/-- Witness for the amended C7 at the concrete ragged file. -/
theorem c7_witness :
    (∃ df, load_and_prepare_data badWidthFile = .ok df) ↔
      (badWidthFile ≠ [] ∧ (badWidthFile.headD []).length = 42 ∧
        ∀ r ∈ badWidthFile, r.length ≤ 42) :=
  c7_loader_failure_amended badWidthFile

/-! ### C8: which table mutations the two views perform -/

theorem zip_range_map {α β γ : Type} (rows : List α) (f : ℕ → β) (g : α → β → γ) :
    (rows.zip ((List.range rows.length).map f)).map (fun p => g p.1 p.2)
      = rows.enum.map (fun p => g p.2 (f p.1)) := by
  apply List.ext_getElem
  · simp
  · intro i h1 h2
    simp [List.getElem_zip, List.getElem_enum]

/-- C8: `plot_attack_trend` mutates the table it is given by appending a
`time` column holding each row's zero-based position, leaving the 42
schema columns and `attack_category` untouched, while `plot_top_attacks`
returns the table entirely unchanged. -/
theorem c8_frame_effects :
    (∀ df : Frame, df.names = KDD_COLUMNS ++ ["attack_category"] →
      (plot_attack_trend df).1.names = df.names ++ ["time"] ∧
      (plot_attack_trend df).1.rows
        = df.rows.enum.map (fun p => p.2 ++ [VInt (Int.ofNat p.1)])) ∧
    ∀ df : Frame, (plot_top_attacks df).1 = df := by
  constructor
  · intro df hnames
    have h1 : (plot_attack_trend df).1 = timed_frame df := by
      rw [plot_attack_trend]
      split <;> rfl
    have htime : "time" ∉ df.names := by rw [hnames]; decide
    rw [h1, timed_frame, setCol, if_neg htime]
    exact ⟨rfl, zip_range_map df.rows (fun i => VInt (Int.ofNat i)) (fun r v => r ++ [v])⟩
  · intro df
    rw [plot_top_attacks]
    split <;> rfl

/-- Concrete loaded-shape table for the C8 witness. -/
def frameW : Frame :=
  ⟨KDD_COLUMNS ++ ["attack_category"], [List.replicate 42 VNull ++ [VStr "Attack"]]⟩

/-- Witness for C8 at a concrete table. -/
theorem c8_witness :
    ((plot_attack_trend frameW).1.names = frameW.names ++ ["time"] ∧
      (plot_attack_trend frameW).1.rows
        = frameW.rows.enum.map (fun p => p.2 ++ [VInt (Int.ofNat p.1)])) ∧
      (plot_top_attacks frameW).1 = frameW :=
  ⟨c8_frame_effects.1 frameW rfl, c8_frame_effects.2 frameW⟩

/-! ### Round trip of rendered cells through the cell parser -/

theorem charToDigit_digitChar {d : ℕ} (h : d < 10) :
    charToDigit (Nat.digitChar d) = d := by
  interval_cases d <;> rfl

theorem digitChar_isDigit {d : ℕ} (h : d < 10) :
    (Nat.digitChar d).isDigit = true := by
  interval_cases d <;> rfl

theorem natToChars_ne_nil (n : ℕ) : natToChars n ≠ [] := by
  rw [natToChars]
  split
  · simp
  · rename_i h
    simp only [ne_eq, List.reverse_eq_nil_iff, List.map_eq_nil_iff]
    rw [natDigits_eq]
    exact Nat.digits_ne_nil_iff_ne_zero.mpr h

theorem natToChars_all_digits (n : ℕ) : (natToChars n).all (·.isDigit) = true := by
  rw [List.all_eq_true]
  intro c hc
  rw [natToChars] at hc
  split at hc
  · rw [List.mem_singleton] at hc
    subst hc
    rfl
  · rw [List.mem_reverse, List.mem_map] at hc
    obtain ⟨d, hd, rfl⟩ := hc
    rw [natDigits_eq] at hd
    exact digitChar_isDigit (Nat.digits_lt_base (by norm_num) hd)

theorem digitsVal_natToChars (n : ℕ) : digitsVal (natToChars n) = n := by
  by_cases h : n = 0
  · subst h; rfl
  · rw [natToChars, if_neg h, digitsVal, List.map_reverse, List.reverse_reverse, List.map_map]
    have hmap : (natDigits n).map (charToDigit ∘ Nat.digitChar) = natDigits n := by
      conv_rhs => rw [← List.map_id (natDigits n)]
      apply List.map_congr_left
      intro d hd
      rw [natDigits_eq] at hd
      exact charToDigit_digitChar (Nat.digits_lt_base (by norm_num) hd)
    rw [hmap, natDigits_eq, Nat.ofDigits_digits]

theorem digitsToNat?_natToChars (n : ℕ) : digitsToNat? (natToChars n) = some n := by
  rw [digitsToNat?, if_pos ⟨natToChars_ne_nil n, natToChars_all_digits n⟩,
    digitsVal_natToChars]

theorem natToChars_length_le {k n : ℕ} (hk : 1 ≤ k) (h : n < 10 ^ k) :
    (natToChars n).length ≤ k := by
  rw [natToChars]
  split
  · simpa using hk
  · rename_i h0
    rw [List.length_reverse, List.length_map, natDigits_eq]
    by_contra hlt
    push_neg at hlt
    have h1 : 10 ^ (k + 1) ≤ 10 ^ (Nat.digits 10 n).length :=
      Nat.pow_le_pow_right (by norm_num) (by omega)
    have h2 : 10 ^ (Nat.digits 10 n).length ≤ 10 * n :=
      Nat.base_pow_length_digits_le 10 n (by norm_num) h0
    have h3 : 10 ^ (k + 1) = 10 * 10 ^ k := by ring
    omega

theorem ofDigits_replicate_zero (p : ℕ) : Nat.ofDigits 10 (List.replicate p 0) = 0 := by
  induction p with
  | zero => rfl
  | succ p ih =>
    rw [List.replicate_succ, Nat.ofDigits_cons, ih]

theorem digitsVal_pad (p : ℕ) (cs : List Char) :
    digitsVal (List.replicate p '0' ++ cs) = digitsVal cs := by
  rw [digitsVal, digitsVal, List.map_append, List.reverse_append, List.map_replicate]
  rw [show charToDigit '0' = 0 from rfl, List.reverse_replicate, Nat.ofDigits_append,
    ofDigits_replicate_zero]
  ring

theorem string_mk_ne_empty {cs : List Char} (h : cs ≠ []) : String.mk cs ≠ "" := by
  intro he
  apply h
  have := congrArg String.data he
  simpa using this

theorem head_not_dash_of_digits {cs : List Char}
    (hne : cs ≠ []) (hdig : cs.all (·.isDigit) = true) :
    ¬ cs.head? = some '-' := by
  intro hcontra
  obtain ⟨c, cs', rfl⟩ := List.exists_cons_of_ne_nil hne
  rw [List.head?_cons, Option.some.injEq] at hcontra
  subst hcontra
  have := List.all_eq_true.mp hdig '-' (List.mem_cons_self _ _)
  exact absurd this (by decide)

theorem parseField_renderValue_int {i : ℤ} (h : 0 ≤ i) :
    parseField (renderValue (VInt i)) = VInt i := by
  rw [renderValue, if_neg (by omega : ¬ i < 0)]
  rw [parseField, if_neg (string_mk_ne_empty (natToChars_ne_nil i.toNat))]
  rw [show (String.mk (natToChars i.toNat)).data = natToChars i.toNat from rfl]
  have hint : intOfChars? (natToChars i.toNat) = some ((i.toNat : ℕ) : ℤ) := by
    rw [intOfChars?,
      if_neg (head_not_dash_of_digits (natToChars_ne_nil _) (natToChars_all_digits _)),
      digitsToNat?_natToChars]
    rfl
  rw [hint]
  show VInt ((i.toNat : ℕ) : ℤ) = VInt i
  rw [Int.toNat_of_nonneg h]

theorem parseField_renderValue_randfloat (n : ℕ) :
    parseField (renderValue (VRat (randfloat n))) = VRat (randfloat n) := by
  set k := n % 2 ^ 53 with hk
  have hklt : k < 2 ^ 53 := Nat.mod_lt _ (by positivity)
  have h1053 : (10 : ℚ) ^ 53 = 5 ^ 53 * 2 ^ 53 := by
    rw [← mul_pow]
    norm_num
  have hq10 : randfloat n * 10 ^ 53 = ((k * 5 ^ 53 : ℕ) : ℚ) := by
    rw [randfloat, ← hk, h1053]
    push_cast
    field_simp
    ring
  have hm : (randfloat n * 10 ^ 53).num.toNat = k * 5 ^ 53 := by
    rw [hq10, Rat.num_natCast, Int.toNat_natCast]
  have hmlt : k * 5 ^ 53 < 10 ^ 53 := by
    have h55 : 0 < (5 : ℕ) ^ 53 := Nat.pow_pos (by norm_num)
    calc k * 5 ^ 53 < 2 ^ 53 * 5 ^ 53 := (Nat.mul_lt_mul_right h55).mpr hklt
      _ = 10 ^ 53 := by rw [← Nat.mul_pow]
  rw [renderValue, ratToChars, hm]
  set ds := List.replicate (53 - (natToChars (k * 5 ^ 53)).length) '0'
      ++ natToChars (k * 5 ^ 53) with hds
  have hlen53 : ds.length = 53 := by
    rw [hds, List.length_append, List.length_replicate]
    have := natToChars_length_le (by norm_num : 1 ≤ 53) hmlt
    omega
  have hdsdigits : ds.all (·.isDigit) = true := by
    rw [List.all_eq_true]
    intro c hc
    rw [hds, List.mem_append] at hc
    rcases hc with hc | hc
    · rw [List.eq_of_mem_replicate hc]
      rfl
    · exact List.all_eq_true.mp (natToChars_all_digits _) _ hc
  have hdsval : digitsVal ds = k * 5 ^ 53 := by
    rw [hds, digitsVal_pad, digitsVal_natToChars]
  rw [parseField, if_neg (string_mk_ne_empty (by simp))]
  rw [show (String.mk ('0' :: '.' :: ds)).data = '0' :: '.' :: ds from rfl]
  have hint : intOfChars? ('0' :: '.' :: ds) = none := by
    rw [intOfChars?, if_neg (by simp)]
    rw [digitsToNat?, if_neg ?_]
    · rfl
    · rintro ⟨-, hall⟩
      have := List.all_eq_true.mp hall '.' (by simp)
      exact absurd this (by decide)
  rw [hint]
  have hdw : ('0' :: '.' :: ds).dropWhile (· ≠ '.') = '.' :: ds := by
    rw [List.dropWhile_cons_of_pos (by decide), List.dropWhile_cons_of_neg (by decide)]
  have htw : ('0' :: '.' :: ds).takeWhile (· ≠ '.') = ['0'] := by
    rw [List.takeWhile_cons_of_pos (by decide), List.takeWhile_cons_of_neg (by decide)]
  have hfloat : floatOfChars? ('0' :: '.' :: ds) = some (randfloat n) := by
    rw [floatOfChars?, if_neg (by simp), floatOfCharsPos?, hdw, htw]
    rw [if_pos ⟨by simp, Or.inl (by simp), by decide, by simpa using hdsdigits⟩]
    rw [List.tail_cons, hdsval, hlen53]
    congr 1
    rw [show digitsVal ['0'] = 0 from rfl]
    rw [randfloat, ← hk]
    push_cast
    rw [h1053]
    field_simp
    ring
  rw [hfloat]

theorem parseField_catStrings :
    ∀ s ∈ PROTOCOLS ++ SERVICES ++ FLAGS ++ ATTACKS, parseField s = VStr s := by
  decide

theorem choice_mem (l : List String) (n : ℕ) (hl : l ≠ []) : choice l n ∈ l := by
  rw [choice]
  have hpos : 0 < l.length := List.length_pos.mpr hl
  have hlt : n % l.length < l.length := Nat.mod_lt _ hpos
  rw [List.getD_eq_getElem _ _ hlt]
  exact List.getElem_mem hlt

theorem parse_render_randint {lo hi : ℤ} (n : ℕ) (h0 : 0 ≤ lo) (hlh : lo ≤ hi) :
    parseField (renderValue (VInt (randint lo hi n))) = VInt (randint lo hi n) :=
  parseField_renderValue_int (le_trans h0 (randint_bounds lo hi n hlh).1)

theorem parse_render_choice {l : List String} (n : ℕ) (hl : l ≠ [])
    (hall : ∀ s ∈ l, parseField s = VStr s) :
    parseField (renderValue (VStr (choice l n))) = VStr (choice l n) :=
  hall _ (choice_mem l n hl)

theorem parse_render_attack_type (c : Prop) [Decidable c] (n : ℕ) :
    parseField (renderValue (VStr (if c then choice (ATTACKS.drop 1) n
        else ATTACKS.getD 0 ""))) =
      VStr (if c then choice (ATTACKS.drop 1) n else ATTACKS.getD 0 "") := by
  split
  · refine parse_render_choice _ (by decide) (fun s hs => parseField_catStrings s ?_)
    simp only [List.mem_append]
    exact Or.inr (List.mem_of_mem_drop hs)
  · exact parseField_catStrings _ (by decide)

theorem generateRow_length (g : ℕ → ℕ) : (generateRow g).length = 42 := rfl

theorem generateRow_roundtrip (g : ℕ → ℕ) :
    ∀ v ∈ generateRow g, parseField (renderValue v) = v := by
  intro v hv
  simp only [generateRow, List.mem_cons, List.not_mem_nil, or_false] at hv
  rcases hv with rfl|rfl|rfl|rfl|rfl|rfl|rfl|rfl|rfl|rfl|rfl|rfl|rfl|rfl|rfl|rfl|rfl|rfl|rfl|rfl|rfl|rfl|rfl|rfl|rfl|rfl|rfl|rfl|rfl|rfl|rfl|rfl|rfl|rfl|rfl|rfl|rfl|rfl|rfl|rfl|rfl|rfl
  all_goals first
    | exact parse_render_randint _ (by norm_num) (by norm_num)
    | exact parseField_renderValue_int (by norm_num)
    | exact parseField_renderValue_randfloat _
    | exact parse_render_choice _ (by decide)
        (fun s hs => parseField_catStrings s (by simp only [List.mem_append]; tauto))
    | exact parse_render_attack_type _ _

theorem genRows_length (n : ℕ) (G : ℕ → ℕ → ℕ) : (genRows n G).length = n := by
  simp [genRows]

theorem genRows_row_length {n : ℕ} {G : ℕ → ℕ → ℕ} :
    ∀ r ∈ genRows n G, r.length = 42 := by
  intro r hr
  rw [genRows] at hr
  obtain ⟨i, -, rfl⟩ := List.mem_map.mp hr
  rfl

theorem parse_row_id {w : ℕ} {a : List Value} (hw : a.length = w)
    (hrt : ∀ v ∈ a, parseField (renderValue v) = v) :
    (List.range w).map (fun j => parseCell (a.map renderValue)[j]?) = a := by
  apply List.ext_getElem
  · simp [hw]
  · intro i h1 h2
    simp only [List.getElem_map, List.getElem_range]
    have hsome : (a.map renderValue)[i]? = some (renderValue a[i]) := by
      rw [List.getElem?_map, List.getElem?_eq_getElem h2]
      rfl
    rw [hsome]
    exact hrt _ (List.getElem_mem h2)

theorem read_csv_saveCsv {rows : List (List Value)} (hne : rows ≠ [])
    (hlen : ∀ r ∈ rows, r.length = 42)
    (hrt : ∀ r ∈ rows, ∀ v ∈ r, parseField (renderValue v) = v) :
    read_csv (saveCsv rows) = .ok rows := by
  obtain ⟨r0, rest, rfl⟩ := List.exists_cons_of_ne_nil hne
  rw [saveCsv, List.map_cons, read_csv]
  have h42 : (r0.map renderValue).length = 42 := by
    rw [List.length_map]
    exact hlen r0 (List.mem_cons_self _ _)
  have hall : (((r0.map renderValue) :: rest.map (fun r => r.map renderValue)).all
      fun r => decide (r.length ≤ (r0.map renderValue).length)) = true := by
    rw [List.all_eq_true]
    intro r hr
    apply decide_eq_true
    rcases List.mem_cons.mp hr with rfl | hr
    · exact le_rfl
    · obtain ⟨a, ha, rfl⟩ := List.mem_map.mp hr
      rw [List.length_map, hlen a (List.mem_cons_of_mem _ ha), h42]
  rw [if_pos hall]
  congr 1
  rw [h42, show (r0.map renderValue) :: rest.map (fun r => r.map renderValue)
      = (r0 :: rest).map (fun r => r.map renderValue) from rfl, List.map_map]
  conv_rhs => rw [← List.map_id (r0 :: rest)]
  apply List.map_congr_left
  intro a ha
  exact parse_row_id (hlen a ha) (hrt a ha)

/-- The table `load_and_prepare_data` builds after a run of
`generate_synthetic_data(n)` whose draws were `G`. -/
def prepared (n : ℕ) (G : ℕ → ℕ → ℕ) : Frame :=
  ⟨KDD_COLUMNS ++ ["attack_category"],
   (genRows n G).map (fun r => r ++ [VStr (attack_category (r.getD 41 VNull))])⟩

theorem load_save (n : ℕ) (G : ℕ → ℕ → ℕ) (hn : 1 ≤ n) :
    load_and_prepare_data (saveCsv (genRows n G)) = .ok (prepared n G) := by
  have hne : genRows n G ≠ [] := by
    rw [← List.length_pos_iff_ne_nil, genRows_length]
    omega
  have hrt : ∀ r ∈ genRows n G, ∀ v ∈ r, parseField (renderValue v) = v := by
    intro r hr
    rw [genRows] at hr
    obtain ⟨i, -, rfl⟩ := List.mem_map.mp hr
    exact generateRow_roundtrip _
  have hread := read_csv_saveCsv hne genRows_row_length hrt
  obtain ⟨r0, rest, hEq⟩ := List.exists_cons_of_ne_nil hne
  have hcond : ((genRows n G).headD []).length = 42 := by
    rw [hEq, List.headD_cons]
    exact genRows_row_length r0 (by rw [hEq]; exact List.mem_cons_self _ _)
  rw [load_and_prepare_data, hread]
  show (if ((genRows n G).headD []).length = 42 then _ else _) = _
  rw [if_pos hcond]
  rfl

/-! ### C2: the save/reload round trip -/

/-- Counterexample for C2 as stated ("for every row count N"): at
`N = 0` the generator writes an empty file and reloading raises the
pandas `EmptyDataError` instead of returning a 0-row table. -/
theorem c2_counterexample :
    load_and_prepare_data (saveCsv (genRows 0 (fun _ _ => 0))) = .error .emptyData := rfl

/-- C2 (amended to positive row counts): writing `n ≥ 1` generated rows
and reloading yields a table of exactly `n` rows whose first 42 fields
equal the generated values (the parser inverts the text formatting
exactly) and whose first 42 column names are the fixed schema, followed
only by the derived `attack_category` column. -/
theorem c2_roundtrip_amended (n : ℕ) (G : ℕ → ℕ → ℕ) (hn : 1 ≤ n) :
    ∃ df, load_and_prepare_data (saveCsv (genRows n G)) = .ok df ∧
      df.rows.length = n ∧
      df.names.take 42 = KDD_COLUMNS ∧
      df.names = KDD_COLUMNS ++ ["attack_category"] ∧
      ∀ i, i < n → (df.rows.getD i []).take 42 = (genRows n G).getD i [] := by
  refine ⟨prepared n G, load_save n G hn, ?_, ?_, rfl, ?_⟩
  · simp only [prepared, List.length_map]
    exact genRows_length n G
  · show (KDD_COLUMNS ++ ["attack_category"]).take 42 = KDD_COLUMNS
    decide
  · intro i hi
    have hi' : i < (genRows n G).length := by rw [genRows_length]; exact hi
    have hmap : (prepared n G).rows.getD i []
        = (genRows n G).getD i []
          ++ [VStr (attack_category (((genRows n G).getD i []).getD 41 VNull))] := by
      simp only [prepared]
      rw [List.getD_eq_getElem _ _ (by simpa using hi'), List.getD_eq_getElem _ _ hi',
        List.getElem_map]
    rw [hmap]
    have hr42 : ((genRows n G).getD i []).length = 42 := by
      rw [List.getD_eq_getElem _ _ hi']
      exact genRows_row_length _ (List.getElem_mem hi')
    exact List.take_left' hr42

/-- Witness for the amended C2 at `n = 1`. -/
theorem c2_witness :
    1 ≤ 1 ∧
      ∃ df, load_and_prepare_data (saveCsv (genRows 1 (fun _ _ => 0))) = .ok df ∧
        df.rows.length = 1 ∧
        df.names.take 42 = KDD_COLUMNS ∧
        df.names = KDD_COLUMNS ++ ["attack_category"] ∧
        ∀ i, i < 1 → (df.rows.getD i []).take 42 = (genRows 1 (fun _ _ => 0)).getD i [] :=
  ⟨le_rfl, c2_roundtrip_amended 1 (fun _ _ => 0) le_rfl⟩

/-! ### C6: ranges of the generated fields -/

/-- A cell holding an integer in the inclusive range `[lo, hi]`. -/
def intIn (x : Value) (lo hi : ℤ) : Prop := ∃ v, x = VInt v ∧ lo ≤ v ∧ v ≤ hi

/-- A cell holding a float in `[0, 1)`. -/
def rateIn01 (x : Value) : Prop := ∃ q, x = VRat q ∧ 0 ≤ q ∧ q < 1

/-- A cell produced by `random.random()` (a float cell). -/
def isRateCell : Value → Bool
  | VRat _ => true
  | _ => false

/-- Counterexample for C6 as stated: a generated row has fifteen rate
fields (seven `serror_rate ... srv_diff_host_rate` and eight
`dst_host_same_srv_rate ... dst_host_srv_rerror_rate`), not eleven. -/
theorem c6_counterexample :
    ((generateRow (fun _ => 0)).countP isRateCell = 15) ∧ (15 : ℕ) ≠ 11 := by
  constructor
  · rfl
  · decide

/-- C6 (amended: the generated rows have fifteen rate fields, not
eleven): every generated row has exactly 42 values in the declared
schema order; all fifteen rate fields are in `[0, 1)`; every bounded
integer field lies in its declared inclusive range; and `land`,
`wrong_fragment`, `urgent`, `num_outbound_cmds` and `is_host_login` are
always 0. -/
theorem c6_generated_ranges_amended (g : ℕ → ℕ) :
    (generateRow g).length = 42 ∧
    intIn ((generateRow g).getD 0 VNull) 0 1000 ∧
    intIn ((generateRow g).getD 4 VNull) 0 50000 ∧
    intIn ((generateRow g).getD 5 VNull) 0 50000 ∧
    (generateRow g).getD 6 VNull = VInt 0 ∧
    (generateRow g).getD 7 VNull = VInt 0 ∧
    (generateRow g).getD 8 VNull = VInt 0 ∧
    intIn ((generateRow g).getD 9 VNull) 0 10 ∧
    intIn ((generateRow g).getD 10 VNull) 0 5 ∧
    intIn ((generateRow g).getD 11 VNull) 0 1 ∧
    intIn ((generateRow g).getD 12 VNull) 0 10 ∧
    intIn ((generateRow g).getD 13 VNull) 0 1 ∧
    intIn ((generateRow g).getD 14 VNull) 0 1 ∧
    intIn ((generateRow g).getD 15 VNull) 0 10 ∧
    intIn ((generateRow g).getD 16 VNull) 0 5 ∧
    intIn ((generateRow g).getD 17 VNull) 0 2 ∧
    intIn ((generateRow g).getD 18 VNull) 0 2 ∧
    (generateRow g).getD 19 VNull = VInt 0 ∧
    (generateRow g).getD 20 VNull = VInt 0 ∧
    intIn ((generateRow g).getD 21 VNull) 0 1 ∧
    intIn ((generateRow g).getD 22 VNull) 1 100 ∧
    intIn ((generateRow g).getD 23 VNull) 1 100 ∧
    rateIn01 ((generateRow g).getD 24 VNull) ∧
    rateIn01 ((generateRow g).getD 25 VNull) ∧
    rateIn01 ((generateRow g).getD 26 VNull) ∧
    rateIn01 ((generateRow g).getD 27 VNull) ∧
    rateIn01 ((generateRow g).getD 28 VNull) ∧
    rateIn01 ((generateRow g).getD 29 VNull) ∧
    rateIn01 ((generateRow g).getD 30 VNull) ∧
    intIn ((generateRow g).getD 31 VNull) 1 255 ∧
    intIn ((generateRow g).getD 32 VNull) 1 255 ∧
    rateIn01 ((generateRow g).getD 33 VNull) ∧
    rateIn01 ((generateRow g).getD 34 VNull) ∧
    rateIn01 ((generateRow g).getD 35 VNull) ∧
    rateIn01 ((generateRow g).getD 36 VNull) ∧
    rateIn01 ((generateRow g).getD 37 VNull) ∧
    rateIn01 ((generateRow g).getD 38 VNull) ∧
    rateIn01 ((generateRow g).getD 39 VNull) ∧
    rateIn01 ((generateRow g).getD 40 VNull) := by
  have hint : ∀ (lo hi : ℤ) (m : ℕ), lo ≤ hi → intIn (VInt (randint lo hi m)) lo hi :=
    fun lo hi m h =>
      ⟨randint lo hi m, rfl, (randint_bounds lo hi m h).1, (randint_bounds lo hi m h).2⟩
  have hrate : ∀ m : ℕ, rateIn01 (VRat (randfloat m)) :=
    fun m => ⟨randfloat m, rfl, (randfloat_bounds m).1, (randfloat_bounds m).2⟩
  repeat' apply And.intro
  all_goals first
    | rfl
    | exact hint _ _ _ (by norm_num)
    | exact hrate _

/-! ### Counting toolkit for the two chart views -/

theorem mem_firstUniq {v : Value} : ∀ {xs : List Value}, v ∈ firstUniq xs ↔ v ∈ xs := by
  intro xs
  induction xs using firstUniq.induct with
  | case1 => rw [firstUniq]
  | case2 x xs ih =>
    rw [firstUniq]
    by_cases hv : v = x
    · subst hv
      simp
    · simp only [List.mem_cons, hv, false_or]
      rw [ih, List.mem_filter]
      simp [hv]

theorem firstUniq_nodup : ∀ (xs : List Value), (firstUniq xs).Nodup := by
  intro xs
  induction xs using firstUniq.induct with
  | case1 => rw [firstUniq]; exact List.nodup_nil
  | case2 x xs ih =>
    rw [firstUniq]
    refine List.Nodup.cons ?_ ih
    intro hx
    have := (List.mem_filter.mp (mem_firstUniq.mp hx)).2
    simp at this

theorem count_add_filter_ne (x : Value) (xs : List Value) :
    xs.count x + (xs.filter (· ≠ x)).length = xs.length := by
  induction xs with
  | nil => rfl
  | cons a xs ih =>
    by_cases h : a = x
    · subst h
      rw [List.count_cons_self, List.filter_cons_of_neg (by simp), List.length_cons]
      omega
    · rw [List.count_cons_of_ne (fun hc => h hc.symm),
        List.filter_cons_of_pos (by simpa using h), List.length_cons, List.length_cons]
      omega

theorem sum_counts_firstUniq : ∀ (xs : List Value),
    ((firstUniq xs).map (fun v => xs.count v)).sum = xs.length := by
  intro xs
  induction xs using firstUniq.induct with
  | case1 => rw [firstUniq]; rfl
  | case2 x xs ih =>
    rw [firstUniq, List.map_cons, List.sum_cons]
    have hmap : (firstUniq (xs.filter (· ≠ x))).map (fun v => (x :: xs).count v)
        = (firstUniq (xs.filter (· ≠ x))).map (fun v => (xs.filter (· ≠ x)).count v) := by
      apply List.map_congr_left
      intro v hv
      have hvne : v ≠ x := by
        have hmem := (List.mem_filter.mp (mem_firstUniq.mp hv)).2
        simpa using hmem
      rw [List.count_cons_of_ne hvne, List.count_filter (by simpa using hvne)]
    rw [hmap, ih, List.count_cons_self]
    have := count_add_filter_ne x xs
    rw [List.length_cons]
    omega

theorem value_counts_perm (xs : List Value) :
    List.Perm (value_counts xs) ((firstUniq xs).map (fun v => (v, xs.count v))) :=
  List.perm_insertionSort _ _

theorem value_counts_length (xs : List Value) :
    (value_counts xs).length = (firstUniq xs).length := by
  rw [(value_counts_perm xs).length_eq, List.length_map]

theorem value_counts_sum (xs : List Value) :
    ((value_counts xs).map Prod.snd).sum = xs.length := by
  rw [List.Perm.sum_eq ((value_counts_perm xs).map Prod.snd), List.map_map]
  exact sum_counts_firstUniq xs

theorem value_counts_keys_mem {xs : List Value} {v : Value} (hv : v ∈ xs) :
    v ∈ (value_counts xs).map Prod.fst := by
  rw [((value_counts_perm xs).map Prod.fst).mem_iff, List.map_map]
  have : v ∈ firstUniq xs := mem_firstUniq.mpr hv
  simpa using this

theorem nodup_subset_length_le {l s : List Value} (hn : l.Nodup)
    (hsub : ∀ x ∈ l, x ∈ s) : l.length ≤ s.length := by
  classical
  have h1 : l.toFinset.card = l.length := List.toFinset_card_of_nodup hn
  have h2 : l.toFinset ⊆ s.toFinset :=
    fun x hx => List.mem_toFinset.mpr (hsub x (List.mem_toFinset.mp hx))
  have h3 := Finset.card_le_card h2
  have h4 : s.toFinset.card ≤ s.length := s.toFinset_card_le
  omega

/-! ### C9: the top-10 cut never drops a label on generated tables -/

theorem generateRow_attack_type (g : ℕ → ℕ) :
    ∃ s ∈ ATTACKS, (generateRow g).getD 41 VNull = VStr s := by
  by_cases hA : 3 / 10 < randfloat (g 0)
  · refine ⟨choice (ATTACKS.drop 1) (g 37),
      List.mem_of_mem_drop (choice_mem _ _ (by decide)), ?_⟩
    show VStr (if 3 / 10 < randfloat (g 0) then choice (ATTACKS.drop 1) (g 37)
        else ATTACKS.getD 0 "") = _
    rw [if_pos hA]
  · refine ⟨"normal.", by decide, ?_⟩
    show VStr (if 3 / 10 < randfloat (g 0) then choice (ATTACKS.drop 1) (g 37)
        else ATTACKS.getD 0 "") = _
    rw [if_neg hA]
    rfl

theorem prepared_cells {n : ℕ} {G : ℕ → ℕ → ℕ} {r1 : List Value}
    (hr1 : r1 ∈ (prepared n G).rows) :
    ∃ r ∈ genRows n G,
      getCell (prepared n G) r1 "attack_category"
          = VStr (attack_category (r.getD 41 VNull)) ∧
      getCell (prepared n G) r1 "attack_type" = r.getD 41 VNull := by
  simp only [prepared, List.mem_map] at hr1
  obtain ⟨r, hrm, rfl⟩ := hr1
  have hlen : r.length = 42 := genRows_row_length r hrm
  have hnames : (prepared n G).names = KDD_COLUMNS ++ ["attack_category"] := rfl
  refine ⟨r, hrm, ?_, ?_⟩
  · rw [getCell, hnames, idx_attack_category, List.getD_append_right _ _ _ _ hlen.le]
    simp [hlen]
  · rw [getCell, hnames, idx_attack_type, List.getD_append _ _ _ _ (by omega)]

/-- C9: on every table this pipeline loads back from its own generator
output, the `head(10)` truncation of the top-attack view discards
nothing: the view equals the full `value_counts` of the attack labels
(there are at most four distinct ones), it contains every label value
occurring among the rows with category `Attack`, and its counts sum to
the number of attack rows. -/
theorem c9_head10_lossless (n : ℕ) (G : ℕ → ℕ → ℕ) (df : Frame)
    (h : load_and_prepare_data (saveCsv (genRows n G)) = .ok df) :
    top_attacks_series df
        = value_counts ((df.rows.filter
            (fun r => getCell df r "attack_category" = VStr "Attack")).map
          (fun r => getCell df r "attack_type")) ∧
      (∀ v ∈ (df.rows.filter
          (fun r => getCell df r "attack_category" = VStr "Attack")).map
            (fun r => getCell df r "attack_type"),
        v ∈ (top_attacks_series df).map Prod.fst) ∧
      ((top_attacks_series df).map Prod.snd).sum
        = (df.rows.filter
            (fun r => getCell df r "attack_category" = VStr "Attack")).length := by
  match n with
  | 0 =>
    rw [show saveCsv (genRows 0 G) = [] from rfl,
      show load_and_prepare_data [] = .error .emptyData from rfl] at h
    exact Except.noConfusion h
  | n + 1 =>
    have hload := load_save (n + 1) G (by omega)
    rw [h] at hload
    obtain rfl : df = prepared (n + 1) G := Except.ok.inj hload
    set atks := ((prepared (n + 1) G).rows.filter
        (fun r => getCell (prepared (n + 1) G) r "attack_category" = VStr "Attack")).map
      (fun r => getCell (prepared (n + 1) G) r "attack_type") with hatks
    have hmem4 : ∀ v ∈ atks, v ∈ (ATTACKS.drop 1).map VStr := by
      intro v hv
      obtain ⟨r1, hr1f, rfl⟩ := List.mem_map.mp hv
      obtain ⟨hr1, hcat⟩ := List.mem_filter.mp hr1f
      have hcat' := of_decide_eq_true hcat
      obtain ⟨r, hrm, hc, ht⟩ := prepared_cells hr1
      rw [genRows] at hrm
      obtain ⟨i, -, rfl⟩ := List.mem_map.mp hrm
      obtain ⟨s, hsA, hts⟩ := generateRow_attack_type (G i)
      rw [ht, hts]
      have hsne : s ≠ "normal." := by
        intro hs
        have h1 := hc.symm.trans hcat'
        rw [hts, hs] at h1
        exact absurd (Value.VStr.inj h1) (by decide)
      rw [show ATTACKS = "normal." :: ATTACKS.drop 1 from rfl] at hsA
      rcases List.mem_cons.mp hsA with rfl | hs2
      · exact absurd rfl hsne
      · exact List.mem_map_of_mem VStr hs2
    have hlen4 : (value_counts atks).length ≤ 10 := by
      rw [value_counts_length]
      have h4 : (firstUniq atks).length ≤ ((ATTACKS.drop 1).map VStr).length :=
        nodup_subset_length_le (firstUniq_nodup atks)
          (fun x hx => hmem4 x (mem_firstUniq.mp hx))
      have h4' : ((ATTACKS.drop 1).map VStr).length = 4 := rfl
      omega
    have htop : top_attacks_series (prepared (n + 1) G) = value_counts atks := by
      rw [top_attacks_series]
      exact List.take_of_length_le hlen4
    refine ⟨htop, ?_, ?_⟩
    · intro v hv
      rw [htop]
      exact value_counts_keys_mem hv
    · rw [htop, value_counts_sum, hatks, List.length_map]

/-- Witness for C9 at `n = 1` and the all-zero random source. -/
theorem c9_witness :
    top_attacks_series (prepared 1 (fun _ _ => 0))
        = value_counts (((prepared 1 (fun _ _ => 0)).rows.filter
            (fun r => getCell (prepared 1 (fun _ _ => 0)) r "attack_category"
              = VStr "Attack")).map
          (fun r => getCell (prepared 1 (fun _ _ => 0)) r "attack_type")) ∧
      (∀ v ∈ ((prepared 1 (fun _ _ => 0)).rows.filter
          (fun r => getCell (prepared 1 (fun _ _ => 0)) r "attack_category"
            = VStr "Attack")).map
            (fun r => getCell (prepared 1 (fun _ _ => 0)) r "attack_type"),
        v ∈ (top_attacks_series (prepared 1 (fun _ _ => 0))).map Prod.fst) ∧
      ((top_attacks_series (prepared 1 (fun _ _ => 0))).map Prod.snd).sum
        = ((prepared 1 (fun _ _ => 0)).rows.filter
            (fun r => getCell (prepared 1 (fun _ _ => 0)) r "attack_category"
              = VStr "Attack")).length :=
  c9_head10_lossless 1 (fun _ _ => 0) (prepared 1 (fun _ _ => 0))
    (load_save 1 (fun _ _ => 0) le_rfl)

/-! ### C5: shape of the top-attack view -/

/-- C5: the top-attack view has at most 10 entries, sorted by
non-increasing count; entries with equal counts keep the first-encounter
order of the counting step (the sort is stable: filtering the sorted
counts at any fixed count value gives exactly the unsorted aggregation
filtered the same way); and a table with no attack rows yields an empty
series and the skip notice instead of a failure. -/
theorem c5_top_attacks_view (df : Frame) :
    (top_attacks_series df).length ≤ 10 ∧
    List.Pairwise (fun a b : Value × ℕ => b.2 ≤ a.2) (top_attacks_series df) ∧
    (∀ (xs : List Value) (c : ℕ),
      (value_counts xs).filter (fun p => p.2 = c)
        = ((firstUniq xs).map (fun v => (v, xs.count v))).filter (fun p => p.2 = c)) ∧
    (df.rows.filter (fun r => getCell df r "attack_category" = VStr "Attack") = [] →
      top_attacks_series df = [] ∧
      (plot_top_attacks df).2 = .notice "No attacks found to plot top 10.") := by
  haveI htot : IsTotal (Value × ℕ) (fun a b => b.2 ≤ a.2) := ⟨fun a b => le_total b.2 a.2⟩
  haveI htrans : IsTrans (Value × ℕ) (fun a b => b.2 ≤ a.2) :=
    ⟨fun _ _ _ h1 h2 => le_trans h2 h1⟩
  refine ⟨?_, ?_, ?_, ?_⟩
  · rw [top_attacks_series]
    exact List.length_take_le _ _
  · rw [top_attacks_series, value_counts]
    exact List.Pairwise.sublist (List.take_sublist 10 _)
      (List.sorted_insertionSort (fun a b : Value × ℕ => b.2 ≤ a.2) _)
  · intro xs c
    set base := (firstUniq xs).map (fun v => (v, xs.count v)) with hbase
    have hpair : (base.filter (fun p => decide (p.2 = c))).Pairwise
        (fun a b : Value × ℕ => b.2 ≤ a.2) := by
      apply List.pairwise_of_forall_mem_list
      intro a ha b hb
      have ha2 := of_decide_eq_true (List.mem_filter.mp ha).2
      have hb2 := of_decide_eq_true (List.mem_filter.mp hb).2
      rw [ha2, hb2]
    have hsub : List.Sublist (base.filter (fun p => decide (p.2 = c))) (value_counts xs) := by
      rw [value_counts, ← hbase]
      exact List.sublist_insertionSort hpair (List.filter_sublist base)
    have hsub2 : List.Sublist (base.filter (fun p => decide (p.2 = c)))
        ((value_counts xs).filter (fun p => decide (p.2 = c))) := by
      have hstep := hsub.filter (fun p => decide (p.2 = c))
      rwa [List.filter_eq_self.mpr (fun a ha => (List.mem_filter.mp ha).2)] at hstep
    have hperm : List.Perm ((value_counts xs).filter (fun p => decide (p.2 = c)))
        (base.filter (fun p => decide (p.2 = c))) := by
      rw [value_counts, ← hbase]
      exact (List.perm_insertionSort _ _).filter _
    exact (hsub2.eq_of_length hperm.length_eq.symm).symm
  · intro hempty
    have hseries : top_attacks_series df = [] := by
      rw [top_attacks_series, hempty]
      rw [show (([] : List (List Value)).map (fun r => getCell df r "attack_type"))
          = [] from rfl]
      rw [value_counts, firstUniq]
      rfl
    refine ⟨hseries, ?_⟩
    rw [plot_top_attacks, if_pos (by rw [hseries]; rfl)]

/-- Witness for C5 at a concrete loaded-shape table with no rows. -/
theorem c5_witness :
    (top_attacks_series ⟨KDD_COLUMNS ++ ["attack_category"], []⟩).length ≤ 10 ∧
    List.Pairwise (fun a b : Value × ℕ => b.2 ≤ a.2)
      (top_attacks_series ⟨KDD_COLUMNS ++ ["attack_category"], []⟩) ∧
    (∀ (xs : List Value) (c : ℕ),
      (value_counts xs).filter (fun p => p.2 = c)
        = ((firstUniq xs).map (fun v => (v, xs.count v))).filter (fun p => p.2 = c)) ∧
    ((⟨KDD_COLUMNS ++ ["attack_category"], []⟩ : Frame).rows.filter
        (fun r => getCell ⟨KDD_COLUMNS ++ ["attack_category"], []⟩ r "attack_category"
          = VStr "Attack") = [] →
      top_attacks_series ⟨KDD_COLUMNS ++ ["attack_category"], []⟩ = [] ∧
      (plot_top_attacks ⟨KDD_COLUMNS ++ ["attack_category"], []⟩).2
        = .notice "No attacks found to plot top 10.") :=
  c5_top_attacks_view ⟨KDD_COLUMNS ++ ["attack_category"], []⟩

/-! ### C3: characterizing the attack-trend view -/

theorem countRunsGo_mem (xs : List ℤ) : ∀ (k : ℤ) (c : ℕ),
    List.Pairwise (· ≤ ·) (k :: xs) →
    ∀ (b : ℤ) (c' : ℕ), ((b, c') ∈ countRunsGo k c xs ↔
      (b = k ∧ c' = c + xs.count k) ∨ (b ≠ k ∧ b ∈ xs ∧ c' = xs.count b)) := by
  induction xs with
  | nil =>
    intro k c hp b c'
    simp [countRunsGo, Prod.ext_iff]
  | cons x xs ih =>
    intro k c hp b c'
    have hkx : k ≤ x := (List.pairwise_cons.mp hp).1 x (List.mem_cons_self _ _)
    have hpx : List.Pairwise (· ≤ ·) (x :: xs) := (List.pairwise_cons.mp hp).2
    rw [countRunsGo]
    by_cases hxk : x = k
    · subst hxk
      rw [if_pos rfl, ih x (c + 1) hpx b c']
      constructor
      · rintro (⟨rfl, hc⟩ | ⟨hne, hmem, hc⟩)
        · exact Or.inl ⟨rfl, by rw [List.count_cons_self]; omega⟩
        · exact Or.inr ⟨hne, List.mem_cons_of_mem _ hmem,
            by rw [List.count_cons_of_ne hne]; omega⟩
      · rintro (⟨rfl, hc⟩ | ⟨hne, hmem, hc⟩)
        · exact Or.inl ⟨rfl, by rw [List.count_cons_self] at hc; omega⟩
        · refine Or.inr ⟨hne, ?_, by rw [List.count_cons_of_ne hne] at hc; omega⟩
          rcases List.mem_cons.mp hmem with rfl | h
          · exact absurd rfl hne
          · exact h
    · rw [if_neg hxk]
      have hkx' : k < x := lt_of_le_of_ne hkx (fun h => hxk h.symm)
      have hknot : k ∉ x :: xs := by
        intro hk
        rcases List.mem_cons.mp hk with rfl | hk'
        · exact hxk rfl
        · have := (List.pairwise_cons.mp hpx).1 k hk'
          omega
      have hcount0 : (x :: xs).count k = 0 := List.count_eq_zero.mpr hknot
      rw [List.mem_cons, ih x 1 hpx b c']
      constructor
      · rintro (heq | (⟨rfl, hc⟩ | ⟨hne, hmem, hc⟩))
        · injection heq with h1 h2
          subst h1
          subst h2
          exact Or.inl ⟨rfl, by simp [hcount0]⟩
        · refine Or.inr ⟨?_, List.mem_cons_self _ _, ?_⟩
          · intro h
            omega
          · rw [List.count_cons_self]
            omega
        · refine Or.inr ⟨?_, List.mem_cons_of_mem _ hmem, ?_⟩
          · intro hbk
            subst hbk
            exact hknot (List.mem_cons_of_mem _ hmem)
          · rw [List.count_cons_of_ne hne]
            omega
      · rintro (⟨rfl, hc⟩ | ⟨hne, hmem, hc⟩)
        · left
          rw [hcount0] at hc
          exact Prod.ext rfl (by omega)
        · rcases List.mem_cons.mp hmem with rfl | hbxs
          · right; left
            exact ⟨rfl, by rw [List.count_cons_self] at hc; omega⟩
          · by_cases hbx : b = x
            · subst hbx
              right; left
              exact ⟨rfl, by rw [List.count_cons_self] at hc; omega⟩
            · right; right
              exact ⟨hbx, hbxs, by rw [List.count_cons_of_ne hbx] at hc; omega⟩

theorem countRunsGo_keys_lt (xs : List ℤ) : ∀ (k : ℤ) (c : ℕ),
    List.Pairwise (· ≤ ·) (k :: xs) →
    List.Pairwise (fun p q : ℤ × ℕ => p.1 < q.1) (countRunsGo k c xs) := by
  induction xs with
  | nil =>
    intro k c hp
    simp [countRunsGo]
  | cons x xs ih =>
    intro k c hp
    have hkx : k ≤ x := (List.pairwise_cons.mp hp).1 x (List.mem_cons_self _ _)
    have hpx : List.Pairwise (· ≤ ·) (x :: xs) := (List.pairwise_cons.mp hp).2
    rw [countRunsGo]
    by_cases hxk : x = k
    · subst hxk
      rw [if_pos rfl]
      exact ih _ _ hpx
    · rw [if_neg hxk]
      have hkx' : k < x := lt_of_le_of_ne hkx (fun h => hxk h.symm)
      refine List.Pairwise.cons ?_ (ih x 1 hpx)
      rintro ⟨b', c'⟩ hq
      rcases (countRunsGo_mem xs x 1 hpx b' c').mp hq with ⟨rfl, -⟩ | ⟨-, hmem, -⟩
      · exact hkx'
      · have hxb := (List.pairwise_cons.mp hpx).1 b' hmem
        show k < b'
        omega

theorem groupbySize_mem (keys : List ℤ) (b : ℤ) (c : ℕ) :
    (b, c) ∈ groupbySize keys ↔ (b ∈ keys ∧ c = keys.count b) := by
  rw [groupbySize]
  have hperm := List.perm_insertionSort (· ≤ ·) keys
  have hsorted : List.Pairwise (· ≤ ·) (keys.insertionSort (· ≤ ·)) :=
    List.sorted_insertionSort (· ≤ ·) keys
  split
  · rename_i heq
    rw [heq] at hperm
    have : keys = [] := hperm.symm.eq_nil
    subst this
    simp
  · rename_i x xs heq
    rw [heq] at hperm hsorted
    rw [countRunsGo_mem xs x 1 hsorted b c]
    constructor
    · rintro (⟨rfl, hc⟩ | ⟨hne, hmem, hc⟩)
      · refine ⟨hperm.mem_iff.mp (List.mem_cons_self _ _), ?_⟩
        rw [← hperm.count_eq, List.count_cons_self]
        omega
      · refine ⟨hperm.mem_iff.mp (List.mem_cons_of_mem _ hmem), ?_⟩
        rw [← hperm.count_eq, List.count_cons_of_ne hne]
        omega
    · rintro ⟨hmem, hc⟩
      rw [← hperm.mem_iff] at hmem
      rw [← hperm.count_eq] at hc
      rcases List.mem_cons.mp hmem with rfl | hmem'
      · left
        exact ⟨rfl, by rw [List.count_cons_self] at hc; omega⟩
      · by_cases hbx : b = x
        · subst hbx
          left
          exact ⟨rfl, by rw [List.count_cons_self] at hc; omega⟩
        · right
          exact ⟨hbx, hmem', by rw [List.count_cons_of_ne hbx] at hc; exact hc⟩

theorem groupbySize_keys_lt (keys : List ℤ) :
    List.Pairwise (fun p q : ℤ × ℕ => p.1 < q.1) (groupbySize keys) := by
  rw [groupbySize]
  split
  · exact List.Pairwise.nil
  · rename_i x xs heq
    apply countRunsGo_keys_lt
    rw [← heq]
    exact List.sorted_insertionSort (· ≤ ·) keys

theorem timed_frame_rows (df : Frame) (h : "time" ∉ df.names) :
    (timed_frame df).names = df.names ++ ["time"] ∧
    (timed_frame df).rows = df.rows.enum.map (fun p => p.2 ++ [VInt (Int.ofNat p.1)]) := by
  rw [timed_frame, setCol, if_neg h]
  exact ⟨rfl, zip_range_map df.rows (fun i => VInt (Int.ofNat i)) (fun r v => r ++ [v])⟩

theorem timed_frame_cells {df : Frame}
    (hnames : df.names = KDD_COLUMNS ++ ["attack_category"])
    {r : List Value} (hrlen : r.length = 43) (i : ℕ) :
    getCell (timed_frame df) (r ++ [VInt (Int.ofNat i)]) "attack_category"
        = getCell df r "attack_category" ∧
    getCell (timed_frame df) (r ++ [VInt (Int.ofNat i)]) "time" = VInt (Int.ofNat i) := by
  have htmem : "time" ∉ df.names := by rw [hnames]; decide
  have hn2 : (timed_frame df).names = df.names ++ ["time"] := (timed_frame_rows df htmem).1
  constructor
  · rw [getCell, getCell, hn2, hnames,
      List.indexOf_append_of_mem
        (by decide : "attack_category" ∈ KDD_COLUMNS ++ ["attack_category"]),
      idx_attack_category, List.getD_append _ _ _ _ (by omega)]
  · rw [getCell, hn2, hnames,
      List.indexOf_append_of_not_mem
        (by decide : "time" ∉ KDD_COLUMNS ++ ["attack_category"]),
      show (KDD_COLUMNS ++ ["attack_category"]).length
          + List.indexOf "time" ["time"] = 43 from rfl,
      List.getD_append_right _ _ _ _ (by omega)]
    simp [hrlen]

/-- Number of rows with category `Attack` whose zero-based position
falls in interval `b` (position div `interval_size`). -/
def attacksInInterval (df : Frame) (b : ℤ) : ℕ :=
  (df.rows.enum.filter (fun p =>
    getCell df p.2 "attack_category" = VStr "Attack"
      ∧ Int.ofNat p.1 / (interval_size : ℤ) = b)).length

/-- The row at position `i` has category `Attack`. -/
def attackAt (df : Frame) (i : ℕ) : Prop :=
  getCell df (df.rows.getD i []) "attack_category" = VStr "Attack"

theorem attack_trend_series_eq (df : Frame)
    (hnames : df.names = KDD_COLUMNS ++ ["attack_category"])
    (hrect : ∀ r ∈ df.rows, r.length = 43) :
    attack_trend_series df = groupbySize
      ((df.rows.enum.filter
          (fun p => getCell df p.2 "attack_category" = VStr "Attack")).map
        (fun p => Int.ofNat p.1 / (interval_size : ℤ))) := by
  have htmem : "time" ∉ df.names := by rw [hnames]; decide
  rw [attack_trend_series, (timed_frame_rows df htmem).2, List.filter_map, List.map_map]
  congr 1
  have hfil : (df.rows.enum.filter
      ((fun r => decide (getCell (timed_frame df) r "attack_category" = VStr "Attack"))
        ∘ (fun p : ℕ × List Value => p.2 ++ [VInt (Int.ofNat p.1)])))
      = df.rows.enum.filter
        (fun p => decide (getCell df p.2 "attack_category" = VStr "Attack")) := by
    apply List.filter_congr
    intro a ha
    have hmem : a.2 ∈ df.rows := List.get?_mem (List.mem_enum_iff_get?.mp ha)
    have hcell := (timed_frame_cells hnames (hrect a.2 hmem) a.1).1
    simp only [Function.comp_apply]
    rw [hcell]
  rw [hfil]
  apply List.map_congr_left
  intro a ha
  have hamem : a ∈ df.rows.enum := List.mem_of_mem_filter ha
  have hmem : a.2 ∈ df.rows := List.get?_mem (List.mem_enum_iff_get?.mp hamem)
  have hcell := (timed_frame_cells hnames (hrect a.2 hmem) a.1).2
  simp only [Function.comp_apply]
  rw [hcell]
  rfl

theorem keys_count_eq (df : Frame) (b : ℤ) :
    ((df.rows.enum.filter
        (fun p => getCell df p.2 "attack_category" = VStr "Attack")).map
      (fun p => Int.ofNat p.1 / (interval_size : ℤ))).count b
      = attacksInInterval df b := by
  rw [attacksInInterval, List.count_eq_countP, List.countP_map, List.countP_filter,
    ← List.countP_eq_length_filter]
  apply List.countP_congr
  intro x hx
  simp [Function.comp_apply, Bool.and_eq_true, decide_eq_true_iff, beq_iff_eq, and_comm]

theorem pairwise_lt_two_mem {l : List (ℤ × ℕ)} {a b : ℤ × ℕ}
    (hp : List.Pairwise (fun p q : ℤ × ℕ => p.1 < q.1) l)
    (hmem : ∀ x, x ∈ l ↔ x = a ∨ x = b) (hab : a.1 < b.1) : l = [a, b] := by
  match l, hp with
  | [], _ =>
    exact absurd ((hmem a).mpr (Or.inl rfl)) (List.not_mem_nil a)
  | [x], _ =>
    exfalso
    have hxa : a = x := by simpa using (hmem a).mpr (Or.inl rfl)
    have hxb : b = x := by simpa using (hmem b).mpr (Or.inr rfl)
    rw [hxa, hxb] at hab
    exact lt_irrefl _ hab
  | x :: y :: rest, hp =>
    have hxy : x.1 < y.1 := (List.pairwise_cons.mp hp).1 y (List.mem_cons_self _ _)
    obtain rfl : x = a := by
      rcases (hmem x).mp (List.mem_cons_self _ _) with rfl | rfl
      · rfl
      · exfalso
        have ha : a ∈ x :: y :: rest := (hmem a).mpr (Or.inl rfl)
        rcases List.mem_cons.mp ha with heq | ha'
        · rw [heq] at hab
          exact lt_irrefl _ hab
        · have := (List.pairwise_cons.mp hp).1 a ha'
          omega
    obtain rfl : y = b := by
      rcases (hmem y).mp (List.mem_cons_of_mem _ (List.mem_cons_self _ _)) with rfl | rfl
      · exfalso
        omega
      · rfl
    cases rest with
    | nil => rfl
    | cons z rest' =>
      exfalso
      have hz := (hmem z).mp (by simp)
      have h1 := (List.pairwise_cons.mp hp).1 z (by simp)
      have h2 := (List.pairwise_cons.mp (List.pairwise_cons.mp hp).2).1 z (by simp)
      rcases hz with rfl | rfl
      · omega
      · omega

/-- C3: on every loaded-shape table, the attack-trend view groups the
rows by zero-based position in blocks of `interval_size = 1000`, counts
the rows with category `Attack` per block, and keeps exactly the blocks
with at least one attack (no zero-fill), in ascending block order; in
particular, every table of 2500 rows whose attacks sit only in positions
`[0, 999]` and `[2000, 2499]` (with at least one attack in each range)
yields exactly the two entries at block indices 0 and 2, carrying the
attack counts of those two ranges. -/
theorem c3_attack_trend_view (df : Frame)
    (hnames : df.names = KDD_COLUMNS ++ ["attack_category"])
    (hrect : ∀ r ∈ df.rows, r.length = 43) :
    (∀ (b : ℤ) (c : ℕ),
      ((b, c) ∈ attack_trend_series df ↔ 0 < c ∧ c = attacksInInterval df b)) ∧
    (df.rows.length = 2500 →
      (∀ i, i < 2500 → attackAt df i → i ≤ 999 ∨ 2000 ≤ i) →
      (∃ i, i ≤ 999 ∧ attackAt df i) →
      (∃ i, 2000 ≤ i ∧ i ≤ 2499 ∧ attackAt df i) →
      attack_trend_series df
        = [(0, attacksInInterval df 0), (2, attacksInInterval df 2)]) := by
  have hchar : ∀ (b : ℤ) (c : ℕ),
      ((b, c) ∈ attack_trend_series df ↔ 0 < c ∧ c = attacksInInterval df b) := by
    intro b c
    rw [attack_trend_series_eq df hnames hrect, groupbySize_mem, ← List.count_pos_iff,
      keys_count_eq]
    constructor
    · rintro ⟨h1, rfl⟩
      exact ⟨h1, rfl⟩
    · rintro ⟨h1, rfl⟩
      exact ⟨h1, rfl⟩
  refine ⟨hchar, ?_⟩
  intro h2500 honly hex1 hex2
  have hpos : ∀ p, p ∈ df.rows.enum → p.1 < 2500 := by
    intro p hp
    have hg := List.mem_enum_iff_get?.mp hp
    have hlt : p.1 < df.rows.length := by
      by_contra hge
      push_neg at hge
      rw [List.get?_eq_none.mpr hge] at hg
      exact Option.noConfusion hg
    omega
  have hint_range : ∀ b : ℤ, attacksInInterval df b ≠ 0 → b = 0 ∨ b = 2 := by
    intro b hb
    rw [attacksInInterval] at hb
    obtain ⟨p, hp⟩ := List.exists_mem_of_length_pos (Nat.pos_of_ne_zero hb)
    have hpe := List.mem_of_mem_filter hp
    obtain ⟨hcat, hdiv⟩ := of_decide_eq_true (List.mem_filter.mp hp).2
    have hget := List.mem_enum_iff_get?.mp hpe
    have hplt := hpos p hpe
    have hAA : attackAt df p.1 := by
      rw [attackAt, show df.rows.getD p.1 [] = p.2 by
        rw [List.getD_eq_getElem?_getD, ← List.get?_eq_getElem?, hget]
        rfl]
      exact hcat
    have hranges := honly p.1 hplt hAA
    have hdiv' : (p.1 : ℤ) / (1000 : ℤ) = b := hdiv
    omega
  have hc0 : 0 < attacksInInterval df 0 := by
    obtain ⟨i, hi999, hAA⟩ := hex1
    have hilt : i < df.rows.length := by omega
    have hpe : (i, df.rows.getD i []) ∈ df.rows.enum := by
      rw [List.mem_enum_iff_get?]
      show df.rows.get? i = some (df.rows.getD i [])
      rw [List.get?_eq_getElem?, List.getElem?_eq_getElem hilt,
        List.getD_eq_getElem _ _ hilt]
    rw [attacksInInterval]
    exact List.length_pos_of_mem (List.mem_filter.mpr ⟨hpe, decide_eq_true
      ⟨hAA, by
        show (i : ℤ) / (1000 : ℤ) = 0
        omega⟩⟩)
  have hc2 : 0 < attacksInInterval df 2 := by
    obtain ⟨i, hi2000, hi2499, hAA⟩ := hex2
    have hilt : i < df.rows.length := by omega
    have hpe : (i, df.rows.getD i []) ∈ df.rows.enum := by
      rw [List.mem_enum_iff_get?]
      show df.rows.get? i = some (df.rows.getD i [])
      rw [List.get?_eq_getElem?, List.getElem?_eq_getElem hilt,
        List.getD_eq_getElem _ _ hilt]
    rw [attacksInInterval]
    exact List.length_pos_of_mem (List.mem_filter.mpr ⟨hpe, decide_eq_true
      ⟨hAA, by
        show (i : ℤ) / (1000 : ℤ) = 2
        omega⟩⟩)
  have hpw : List.Pairwise (fun p q : ℤ × ℕ => p.1 < q.1) (attack_trend_series df) := by
    rw [attack_trend_series_eq df hnames hrect]
    exact groupbySize_keys_lt _
  apply pairwise_lt_two_mem hpw ?_ (by decide : (0 : ℤ) < 2)
  intro x
  constructor
  · intro hx
    obtain ⟨b, c⟩ := x
    obtain ⟨hcpos, rfl⟩ := (hchar b c).mp hx
    rcases hint_range b (by omega) with rfl | rfl
    · exact Or.inl rfl
    · exact Or.inr rfl
  · intro hx
    rcases hx with rfl | rfl
    · exact (hchar 0 _).mpr ⟨hc0, rfl⟩
    · exact (hchar 2 _).mpr ⟨hc2, rfl⟩

/-- Concrete 2500-row loaded-shape table: attacks exactly in positions
0-999 and 2000-2499. -/
def frame2500 : Frame :=
  ⟨KDD_COLUMNS ++ ["attack_category"],
   List.replicate 1000 (List.replicate 42 VNull ++ [VStr "Attack"])
     ++ List.replicate 1000 (List.replicate 42 VNull ++ [VStr "Normal"])
     ++ List.replicate 500 (List.replicate 42 VNull ++ [VStr "Attack"])⟩

/-- Witness for C3 at the concrete 2500-row table. -/
theorem c3_witness :
    (∀ (b : ℤ) (c : ℕ),
      ((b, c) ∈ attack_trend_series frame2500 ↔
        0 < c ∧ c = attacksInInterval frame2500 b)) ∧
    (frame2500.rows.length = 2500 →
      (∀ i, i < 2500 → attackAt frame2500 i → i ≤ 999 ∨ 2000 ≤ i) →
      (∃ i, i ≤ 999 ∧ attackAt frame2500 i) →
      (∃ i, 2000 ≤ i ∧ i ≤ 2499 ∧ attackAt frame2500 i) →
      attack_trend_series frame2500
        = [(0, attacksInInterval frame2500 0), (2, attacksInInterval frame2500 2)]) :=
  c3_attack_trend_view frame2500 rfl (by
    intro r hr
    simp only [frame2500, List.mem_append, List.mem_replicate] at hr
    rcases hr with (⟨-, rfl⟩ | ⟨-, rfl⟩) | ⟨-, rfl⟩ <;> rfl)
